import Mathlib

/-!
Verification of the SoftTissueSimulation synchronization layer
(`src/SoftTissueSimulation/SoftTissueSimulation.py`).

The development shallowly embeds the parameter-node field mappings
(`SoftTissueSimulationParameterNode`), the simulation-session state machine of
the surrounding `SlicerSofaLogic` framework (modelled from the spec where the
framework sources are not available), and the derived-geometry utilities used
by `SoftTissueSimulationLogic`.  Scene coordinates are embedded as rationals;
the gravity pipeline, which takes a Euclidean norm, is embedded over the reals.
-/

namespace SoftTissueSimulation

/-- A 3-component vector, the embedding of a VTK/NumPy 3-vector. -/
structure V3 (α : Type) where
  x : α
  y : α
  z : α
deriving DecidableEq

/-- Embedding of a `vtkMRMLModelNode` carrying an unstructured grid: the point
positions, the flattened VTK cell array (`[n, i1 .. in, n, ...]` as returned by
`GetCells().GetData()`), and a counter standing for `Modified()` calls. -/
structure MRMLModelNode where
  points : List (V3 ℚ)
  cellsFlat : List ℕ
  modified : ℕ
deriving DecidableEq

/-- Embedding of a `vtkMRMLMarkupsROINode`: axis-aligned center (`SetXYZ`) and
half-extents (`SetRadiusXYZ`). -/
structure MarkupsROINode where
  center : V3 ℚ
  radius : V3 ℚ
deriving DecidableEq

/-- Embedding of a `vtkMRMLMarkupsLineNode`: its two control points. -/
structure MarkupsLineNode where
  p0 : V3 ℚ
  p1 : V3 ℚ
deriving DecidableEq

/-- Embedding of a `vtkMRMLMarkupsFiducialNode`: its control-point list. -/
structure MarkupsFiducialNode where
  controlPoints : List (V3 ℚ)
deriving DecidableEq

/-- Embedding of `SoftTissueSimulationParameterNode`: the four optional node
references declared with `NodeMapper`, the `gravityMagnitude: int = 1` field,
and the `dt` / `currentStep` / `totalSteps` fields supplied by the wrapper and
set in `SoftTissueSimulationLogic.resetParameterNode`. -/
structure ParameterNode where
  modelNode : Option MRMLModelNode
  boundaryROI : Option MarkupsROINode
  gravityVector : Option MarkupsLineNode
  movingPointNode : Option MarkupsFiducialNode
  gravityMagnitude : ℤ
  dt : ℚ
  currentStep : ℤ
  totalSteps : ℤ
deriving DecidableEq

/-- Field defaults of the parameter-node class: the node references are unset
and `gravityMagnitude: int = 1` (class declaration, source line 207).  The
wrapper-supplied numeric fields are default-initialised to zero here; no claim
depends on their pre-reset values. -/
def defaultParameterNode : ParameterNode :=
  { modelNode := none
    boundaryROI := none
    gravityVector := none
    movingPointNode := none
    gravityMagnitude := 1
    dt := 0
    currentStep := 0
    totalSteps := 0 }

/-- `SoftTissueSimulationLogic.resetParameterNode` (source lines 530-541):
clears the four node references, sets `dt = 0.01`, `currentStep = 0` and
`totalSteps = -1`.  It does not touch `gravityMagnitude`. -/
def resetParameterNode (p : ParameterNode) : ParameterNode :=
  { p with
    modelNode := none
    boundaryROI := none
    gravityVector := none
    movingPointNode := none
    dt := 1 / 100
    currentStep := 0
    totalSteps := -1 }

/-- The Python exception raised by attribute access on `None`. -/
inductive PyError where
  | attributeError
deriving DecidableEq

/-- Engine-side state of the `FEM.FixedROI.BoxROI` SOFA object: its `box`
field. -/
structure SofaBoxROI where
  box : List (List ℚ)
deriving DecidableEq

/-- Engine-side state of a SOFA node's `gravity` field. -/
structure SofaGravityNode where
  gravity : V3 ℝ

/-- Engine-side state of the `FEM` topology container: `Container.tetrahedra`
and `Container.position`. -/
structure SofaContainer where
  tetrahedra : List (List ℕ)
  position : List (V3 ℚ)
deriving DecidableEq

/-- Engine-side state of the `AttachPoint.mouseInteractor` object: its
`position` field. -/
structure SofaMouseInteractor where
  position : List (List ℚ)
deriving DecidableEq

/-- Modelled from the spec: `arrayFromMarkupsROIPoints` (a `SlicerSofa`
framework utility whose source is not under `src/`) returns the box
`[minX, minY, minZ, maxX, maxY, maxZ]` computed directly from the ROI
marker's current center and half-extents. -/
def arrayFromMarkupsROIPoints (roi : MarkupsROINode) : List ℚ :=
  [roi.center.x - roi.radius.x, roi.center.y - roi.radius.y,
   roi.center.z - roi.radius.z,
   roi.center.x + roi.radius.x, roi.center.y + roi.radius.y,
   roi.center.z + roi.radius.z]

/-- Modelled from the spec: `arrayVectorFromMarkupsLinePoints` (a `SlicerSofa`
framework utility whose source is not under `src/`) returns the difference
`endpoint1 - endpoint0` of the line marker's two control points. -/
def arrayVectorFromMarkupsLinePoints (l : MarkupsLineNode) : V3 ℚ :=
  ⟨l.p1.x - l.p0.x, l.p1.y - l.p0.y, l.p1.z - l.p0.z⟩

/-- `SoftTissueSimulationParameterNode.markupsROIToSofaROI` (source lines
209-220): returns immediately when `boundaryROI` is `None`, otherwise writes
`sofaNode.box = [arrayFromMarkupsROIPoints(self.boundaryROI)]`. -/
def markupsROIToSofaROI (p : ParameterNode) (sofaNode : SofaBoxROI) :
    Except PyError SofaBoxROI :=
  match p.boundaryROI with
  | none => .ok sofaNode
  | some roi => .ok { sofaNode with box := [arrayFromMarkupsROIPoints roi] }

/-- Rational 3-vector viewed inside ℝ. -/
def castV3 (v : V3 ℚ) : V3 ℝ :=
  ⟨(v.x : ℝ), (v.y : ℝ), (v.z : ℝ)⟩

/-- `np.linalg.norm` of a 3-vector: the Euclidean magnitude. -/
noncomputable def npLinalgNorm (v : V3 ℝ) : ℝ :=
  Real.sqrt (v.x ^ 2 + v.y ^ 2 + v.z ^ 2)

/-- The normalization expression of `markupsLineToGravityVector` (source line
234): `gravityVector / magnitude if magnitude != 0 else gravityVector`. -/
noncomputable def normalizeIfNonzero (v : V3 ℝ) : V3 ℝ :=
  let magnitude := npLinalgNorm v
  letI : Decidable (magnitude ≠ 0) := Classical.propDecidable _
  if magnitude ≠ 0 then ⟨v.x / magnitude, v.y / magnitude, v.z / magnitude⟩
  else v

/-- Componentwise product of a 3-vector with a scalar, the embedding of the
NumPy elementwise product `normalizedGravityVector * self.gravityMagnitude`. -/
def smulV3 (v : V3 ℝ) (c : ℝ) : V3 ℝ :=
  ⟨v.x * c, v.y * c, v.z * c⟩

/-- `SoftTissueSimulationParameterNode.markupsLineToGravityVector` (source
lines 222-235): returns immediately when `gravityVector` is `None`, otherwise
writes `sofaNode.gravity = normalize(endpoint1 - endpoint0) * gravityMagnitude`
with the zero-magnitude guard of line 234. -/
noncomputable def markupsLineToGravityVector (p : ParameterNode)
    (sofaNode : SofaGravityNode) : Except PyError SofaGravityNode :=
  match p.gravityVector with
  | none => .ok sofaNode
  | some line =>
      let gravityVector := castV3 (arrayVectorFromMarkupsLinePoints line)
      let normalizedGravityVector := normalizeIfNonzero gravityVector
      .ok { sofaNode with
            gravity := smulV3 normalizedGravityVector (p.gravityMagnitude : ℝ) }

/-- The cell-parsing loop of `modelNodetoSofaNode` (source lines 259-264):
turns the flattened VTK cell array `[n, i1 .. in, ...]` into a list of
connectivity lists. -/
def parseVTKCellArray (data : List ℕ) : List (List ℕ) :=
  match data with
  | [] => []
  | n :: rest => rest.take n :: parseVTKCellArray (rest.drop n)
termination_by data.length
decreasing_by
  simp only [List.length_cons, List.length_drop]
  omega

/-- `SoftTissueSimulationParameterNode.modelNodetoSofaNode` (source lines
237-268, the body under the `RunOnce` decorator): returns immediately when
`modelNode` is `None`, otherwise uploads the parsed tetrahedra connectivity
and the point coordinates into the SOFA container. -/
def modelNodetoSofaNode (p : ParameterNode) (sofaNode : SofaContainer) :
    Except PyError SofaContainer :=
  match p.modelNode with
  | none => .ok sofaNode
  | some m =>
      .ok { sofaNode with
            tetrahedra := parseVTKCellArray m.cellsFlat
            position := m.points }

/-- `SoftTissueSimulationParameterNode.sofaNodeToModelNode` (source lines
270-284): converts the engine's current point positions and then dereferences
`self.modelNode` with **no** `None` guard — when `modelNode` is `None`, the
attribute access `self.modelNode.GetUnstructuredGrid()` raises
`AttributeError`.  Otherwise it installs the engine positions as the model's
points and calls `Modified()`. -/
def sofaNodeToModelNode (p : ParameterNode) (enginePositions : List (V3 ℚ)) :
    Except PyError ParameterNode :=
  match p.modelNode with
  | none => .error .attributeError
  | some m =>
      .ok { p with
            modelNode := some { m with
                                points := enginePositions
                                modified := m.modified + 1 } }

/-- The Python expression `list(pos) * 3`: the coordinate list repeated three
times into one flat list. -/
def pyListTimes3 (l : List ℚ) : List ℚ :=
  l ++ l ++ l

/-- `GetNthControlPointPosition(0)`: the first control point of a markups
fiducial node (`(0,0,0)` when the node has no control points). -/
def firstControlPoint (f : MarkupsFiducialNode) : V3 ℚ :=
  f.controlPoints.headD ⟨0, 0, 0⟩

/-- `SoftTissueSimulationParameterNode.markupsFiducialNodeToSofaPoint` (source
lines 286-297): returns immediately when `movingPointNode` is `None`,
otherwise writes `sofaNode.position = [list(firstControlPoint) * 3]`. -/
def markupsFiducialNodeToSofaPoint (p : ParameterNode)
    (sofaNode : SofaMouseInteractor) : Except PyError SofaMouseInteractor :=
  match p.movingPointNode with
  | none => .ok sofaNode
  | some f =>
      let pos := firstControlPoint f
      .ok { sofaNode with position := [pyListTimes3 [pos.x, pos.y, pos.z]] }

/-- Session phase of the simulation state machine (spec section 4.4). -/
inductive Phase where
  | idle
  | running
deriving DecidableEq

/-- State-machine misuse errors of the spec's error taxonomy. -/
inductive SessionError where
  | alreadyRunning
  | notRunning
deriving DecidableEq

/-- Modelled from the spec: the `SlicerSofaLogic` session state (the framework
class is not under `src/`): `phase`, `stepIndex`, `stepBudget` (`-1` =
unbounded, the source's `totalSteps`), the once-guard of the single `RunOnce`
mapping (`modelNodetoSofaNode`) and a counter of that mapping's actual
executions. -/
structure Session where
  phase : Phase
  stepIndex : ℤ
  stepBudget : ℤ
  onceDone : Bool
  uploads : ℕ
deriving DecidableEq

/-- Modelled from the spec: one attempt of the `RunOnce`-guarded `ToEngine`
mapping (`RunOnce` is not under `src/`): it executes only if it has never
successfully executed for the current session instance; a failed attempt
(bound entity absent, `present = false`) does not consume the once-guard. -/
def attemptOnce (present : Bool) (s : Session) : Session :=
  if s.onceDone then s
  else if present then { s with onceDone := true, uploads := s.uploads + 1 }
  else s

/-- The session state produced by a successful `start()`: transition to
`Running`, reset the step index, re-arm the once-guard, then run `ToEngine`
once (which attempts the `RunOnce` mapping). -/
def startedSession (present : Bool) (s : Session) : Session :=
  attemptOnce present { s with phase := .running, stepIndex := 0, onceDone := false }

/-- Modelled from the spec: `start()` fails with `AlreadyRunning` while
`Running`; on success it runs `ToEngine` once, transitions to `Running` and
sets `stepIndex = 0`. -/
def startSimulation (present : Bool) (s : Session) : Except SessionError Session :=
  match s.phase with
  | .running => .error .alreadyRunning
  | .idle => .ok (startedSession present s)

/-- Modelled from the spec: `step()` fails with `NotRunning` while `Idle`;
otherwise it runs `ToEngine` (attempting the `RunOnce` mapping if still
eligible), increments `stepIndex`, and auto-transitions to `Idle` when
`stepBudget >= 0` and the step index has reached it. -/
def simulationStep (present : Bool) (s : Session) : Except SessionError Session :=
  match s.phase with
  | .idle => .error .notRunning
  | .running =>
      let s1 := attemptOnce present s
      let s2 := { s1 with stepIndex := s1.stepIndex + 1 }
      .ok (if 0 ≤ s2.stepBudget ∧ s2.stepBudget ≤ s2.stepIndex
           then { s2 with phase := .idle }
           else s2)

/-- Modelled from the spec: `stop()` is idempotent; calling while already
`Idle` is a no-op, not an error.  It transitions to `Idle` and releases the
engine graph handle. -/
def stopSimulation (s : Session) : Session :=
  { s with phase := .idle }

/-- One `step()` call whose result state is kept on success; a failed call
leaves the session state unchanged (spec section 7: no partial-state
corruption). -/
def stepKeep (b : Bool) (s : Session) : Session :=
  match simulationStep b s with
  | .ok t => t
  | .error _ => s

/-- A sequence of `step()` calls, one per entity-presence flag. -/
def runSteps (flags : List Bool) (s : Session) : Session :=
  match flags with
  | [] => s
  | b :: rest => runSteps rest (stepKeep b s)

/-- `n` consecutive `step()` calls with the entity present, stopping at the
first error. -/
def stepN : ℕ → Session → Except SessionError Session
  | 0, s => .ok s
  | n + 1, s =>
      match simulationStep true s with
      | .ok t => stepN n t
      | .error e => .error e

/-- Squared Euclidean distance between two rational points. -/
def dist2 (a b : V3 ℚ) : ℚ :=
  (a.x - b.x) ^ 2 + (a.y - b.y) ^ 2 + (a.z - b.z) ^ 2

/-- The points of a mesh paired with their point ids, starting at id `k`. -/
def indexFrom (k : ℕ) : List (V3 ℚ) → List (ℕ × V3 ℚ)
  | [] => []
  | p :: rest => (k, p) :: indexFrom (k + 1) rest

/-- The candidate scan: keeps the current best `(id, point)` and replaces it
only on a strictly smaller distance, so the lowest id wins exact distance
ties. -/
def pickClosest (q : V3 ℚ) : ℕ × V3 ℚ → List (ℕ × V3 ℚ) → ℕ × V3 ℚ
  | best, [] => best
  | best, c :: rest =>
      pickClosest q (if dist2 q c.2 < dist2 q best.2 then c else best) rest

/-- Modelled from the spec: `vtkPointLocator.FindClosestPoint`, the spatial
lookup used by `addFiducialToClosestPoint` (performed by the external VTK
library): returns the id and coordinates of the mesh point closest to the
query point, breaking exact distance ties by lowest point id; `none` on an
empty mesh. -/
def findClosestPoint (pts : List (V3 ℚ)) (q : V3 ℚ) : Option (ℕ × V3 ℚ) :=
  match pts with
  | [] => none
  | p :: rest => some (pickClosest q (0, p) (indexFrom 1 rest))

/-- `SoftTissueSimulationLogic.addFiducialToClosestPoint` (source lines
652-691): locates the mesh point closest to the camera position and creates a
fiducial node whose single control point is that closest point. -/
def addFiducialToClosestPoint (pts : List (V3 ℚ)) (camPosition : V3 ℚ) :
    Option MarkupsFiducialNode :=
  (findClosestPoint pts camPosition).map (fun r => ⟨[r.2]⟩)

/-- A VTK bounds tuple `(xmin, xmax, ymin, ymax, zmin, zmax)`. -/
structure Bounds where
  xmin : ℚ
  xmax : ℚ
  ymin : ℚ
  ymax : ℚ
  zmin : ℚ
  zmax : ℚ
deriving DecidableEq

/-- Modelled from the spec and VTK's documented behaviour: `GetBounds()` of a
VTK dataset (the bounds query used by `addBoundaryROI` is performed by the
external VTK library, not by code under `src/`) returns the componentwise
min/max over all points; for a dataset with zero points it returns the
uninitialized bounds `(1, -1, 1, -1, 1, -1)` and does not raise. -/
def vtkGetBounds (pts : List (V3 ℚ)) : Bounds :=
  match pts with
  | [] => ⟨1, -1, 1, -1, 1, -1⟩
  | p :: rest =>
      rest.foldl
        (fun b c => ⟨min b.xmin c.x, max b.xmax c.x, min b.ymin c.y,
                     max b.ymax c.y, min b.zmin c.z, max b.zmax c.z⟩)
        ⟨p.x, p.x, p.y, p.y, p.z, p.z⟩

/-- The geometry-query error taxonomy of the spec (section 7). -/
inductive GeomError where
  | emptyGeometry
deriving DecidableEq

/-- `SoftTissueSimulationLogic.addBoundaryROI` (source lines 573-605): adds a
fresh ROI node, and — when the model node carries a mesh — sets the node's
center and radii from the mesh bounds (center and half-extent per axis); the
ROI node is assigned to `boundaryROI` unconditionally and the method has no
failure path. -/
def addBoundaryROI (mesh : Option (List (V3 ℚ))) (p : ParameterNode) :
    Except GeomError ParameterNode :=
  let roiNode : MarkupsROINode := ⟨⟨0, 0, 0⟩, ⟨0, 0, 0⟩⟩
  let roiNode :=
    match mesh with
    | none => roiNode
    | some pts =>
        let b := vtkGetBounds pts
        { roiNode with
          center := ⟨(b.xmin + b.xmax) / 2, (b.ymin + b.ymax) / 2, (b.zmin + b.zmax) / 2⟩
          radius := ⟨|b.xmax - b.xmin| / 2, |b.ymax - b.ymin| / 2, |b.zmax - b.zmin| / 2⟩ }
  .ok { p with boundaryROI := some roiNode }

lemma attemptOnce_phase (b : Bool) (s : Session) :
    (attemptOnce b s).phase = s.phase := by
  unfold attemptOnce
  split
  · rfl
  · split
    · rfl
    · rfl

lemma attemptOnce_stepBudget (b : Bool) (s : Session) :
    (attemptOnce b s).stepBudget = s.stepBudget := by
  unfold attemptOnce
  split
  · rfl
  · split
    · rfl
    · rfl

lemma attemptOnce_of_onceDone (b : Bool) (s : Session)
    (h : s.onceDone = true) : attemptOnce b s = s := by
  unfold attemptOnce
  rw [h]
  rfl

lemma attemptOnce_absent (t : Session) : attemptOnce false t = t := by
  unfold attemptOnce
  split
  · rfl
  · rfl

lemma attemptOnce_present_not_done (t : Session) (ht : t.onceDone = false) :
    (attemptOnce true t).uploads = t.uploads + 1 := by
  unfold attemptOnce
  rw [ht]
  rfl

lemma stepKeep_error (b : Bool) (s : Session) (e : SessionError)
    (h : simulationStep b s = .error e) : stepKeep b s = s := by
  unfold stepKeep
  rw [h]

lemma stepKeep_ok (b : Bool) (s t : Session)
    (h : simulationStep b s = .ok t) : stepKeep b s = t := by
  unfold stepKeep
  rw [h]

/-- Once the once-guard is consumed, any sequence of `step()` calls keeps it
consumed and performs no further topology upload. -/
lemma runSteps_of_onceDone (flags : List Bool) :
    ∀ s : Session, s.onceDone = true →
      (runSteps flags s).onceDone = true ∧
      (runSteps flags s).uploads = s.uploads := by
  induction flags with
  | nil =>
      intro s h
      exact ⟨h, rfl⟩
  | cons b rest ih =>
      intro s h
      cases hp : s.phase with
      | idle =>
          have hstep : simulationStep b s = .error .notRunning := by
            simp only [simulationStep, hp]
          rw [runSteps, stepKeep_error b s _ hstep]
          exact ih s h
      | running =>
          have hstep : simulationStep b s
              = .ok (if 0 ≤ s.stepBudget ∧ s.stepBudget ≤ s.stepIndex + 1
                     then { s with stepIndex := s.stepIndex + 1, phase := .idle }
                     else { s with stepIndex := s.stepIndex + 1 }) := by
            simp only [simulationStep, hp, attemptOnce_of_onceDone _ _ h]
          rw [runSteps, stepKeep_ok b s _ hstep]
          split
          · exact ih _ h
          · exact ih _ h

/-- After a fresh `start()` with the entity present the once-guard is
consumed and exactly one upload has happened. -/
lemma startedSession_present (s : Session) :
    (startedSession true s).onceDone = true ∧
    (startedSession true s).uploads = s.uploads + 1 := by
  unfold startedSession attemptOnce
  simp

/-- With an unbounded budget (`stepBudget = -1`), `step()` always succeeds and
the session never auto-stops. -/
lemma stepN_unbounded (n : ℕ) :
    ∀ s : Session, s.phase = .running → s.stepBudget = -1 →
      ∃ t, stepN n s = .ok t ∧ t.phase = .running ∧ t.stepBudget = -1 := by
  induction n with
  | zero =>
      intro s h1 h2
      exact ⟨s, rfl, h1, h2⟩
  | succ n ih =>
      intro s h1 h2
      have hb : (attemptOnce true s).stepBudget = -1 :=
        (attemptOnce_stepBudget true s).trans h2
      have hstep : simulationStep true s
          = .ok { attemptOnce true s with
                  stepIndex := (attemptOnce true s).stepIndex + 1 } := by
        simp only [simulationStep, h1]
        rw [if_neg]
        intro hc
        rw [show ({ attemptOnce true s with
              stepIndex := (attemptOnce true s).stepIndex + 1 } : Session).stepBudget
            = (attemptOnce true s).stepBudget from rfl, hb] at hc
        omega
      rw [stepN, hstep]
      exact ih _ ((attemptOnce_phase true s).trans h1) hb

lemma mem_indexFrom {c : ℕ × V3 ℚ} :
    ∀ (l : List (V3 ℚ)) (k : ℕ), c ∈ indexFrom k l →
      ∃ (j : ℕ) (h : j < l.length), c.1 = k + j ∧ c.2 = l.get ⟨j, h⟩ := by
  intro l
  induction l with
  | nil =>
      intro k hc
      simp [indexFrom] at hc
  | cons p rest ih =>
      intro k hc
      rw [indexFrom] at hc
      rcases List.mem_cons.mp hc with h | h
      · subst h
        exact ⟨0, by simp, by simp, rfl⟩
      · obtain ⟨j, hj, h1, h2⟩ := ih (k + 1) h
        refine ⟨j + 1, by simpa using Nat.succ_lt_succ hj, by omega, ?_⟩
        exact h2

lemma indexFrom_mem :
    ∀ (l : List (V3 ℚ)) (k j : ℕ) (h : j < l.length),
      (k + j, l.get ⟨j, h⟩) ∈ indexFrom k l := by
  intro l
  induction l with
  | nil =>
      intro k j h
      simp at h
  | cons p rest ih =>
      intro k j h
      rw [indexFrom]
      cases j with
      | zero => simp
      | succ j =>
          refine List.mem_cons_of_mem _ ?_
          have hmem := ih (k + 1) j (by simpa using h)
          have heq : k + (j + 1) = (k + 1) + j := by omega
          rw [heq]
          exact hmem

lemma indexFrom_pairwise :
    ∀ (l : List (V3 ℚ)) (k : ℕ),
      List.Pairwise (fun a b : ℕ × V3 ℚ => a.1 < b.1) (indexFrom k l) := by
  intro l
  induction l with
  | nil =>
      intro k
      simp [indexFrom]
  | cons p rest ih =>
      intro k
      rw [indexFrom, List.pairwise_cons]
      refine ⟨?_, ih (k + 1)⟩
      intro c hc
      obtain ⟨j, hj, h1, _⟩ := mem_indexFrom rest (k + 1) hc
      show k < c.1
      omega

/-- The scan returns a candidate of minimal distance, and every candidate with
a smaller id has a strictly larger distance (ids are pairwise increasing in
scan order). -/
lemma pickClosest_spec (q : V3 ℚ) :
    ∀ (L : List (ℕ × V3 ℚ)) (best : ℕ × V3 ℚ),
      List.Pairwise (fun a b : ℕ × V3 ℚ => a.1 < b.1) (best :: L) →
      (pickClosest q best L = best ∨ pickClosest q best L ∈ L) ∧
      (∀ c ∈ best :: L, dist2 q (pickClosest q best L).2 ≤ dist2 q c.2) ∧
      (∀ c ∈ best :: L, c.1 < (pickClosest q best L).1 →
        dist2 q (pickClosest q best L).2 < dist2 q c.2) := by
  intro L
  induction L with
  | nil =>
      intro best _
      refine ⟨Or.inl rfl, ?_, ?_⟩
      · intro c hc
        have h : c = best := by simpa using hc
        subst h
        exact le_refl _
      · intro c hc hlt
        have h : c = best := by simpa using hc
        subst h
        exact absurd hlt (lt_irrefl _)
  | cons c rest ih =>
      intro best hpw
      rw [List.pairwise_cons] at hpw
      obtain ⟨hbest, hpw2⟩ := hpw
      have hpc := (List.pairwise_cons.mp hpw2).1
      have hprest := (List.pairwise_cons.mp hpw2).2
      have heq : pickClosest q best (c :: rest)
          = pickClosest q (if dist2 q c.2 < dist2 q best.2 then c else best) rest := rfl
      by_cases hlt : dist2 q c.2 < dist2 q best.2
      · rw [heq, if_pos hlt]
        obtain ⟨hmem, hmin, hstrict⟩ := ih c hpw2
        refine ⟨?_, ?_, ?_⟩
        · rcases hmem with h | h
          · refine Or.inr ?_
            rw [h]
            exact List.mem_cons_self c rest
          · exact Or.inr (List.mem_cons_of_mem c h)
        · intro u hu
          rcases List.mem_cons.mp hu with h | h
          · rw [h]
            exact le_of_lt (lt_of_le_of_lt (hmin c (List.mem_cons_self c rest)) hlt)
          · exact hmin u h
        · intro u hu hult
          rcases List.mem_cons.mp hu with h | h
          · rw [h] at hult ⊢
            exact lt_of_le_of_lt (hmin c (List.mem_cons_self c rest)) hlt
          · exact hstrict u h hult
      · rw [heq, if_neg hlt]
        have hnot : dist2 q best.2 ≤ dist2 q c.2 := le_of_not_lt hlt
        have hpwb : List.Pairwise (fun a b : ℕ × V3 ℚ => a.1 < b.1) (best :: rest) := by
          rw [List.pairwise_cons]
          exact ⟨fun u hu => hbest u (List.mem_cons_of_mem c hu), hprest⟩
        obtain ⟨hmem, hmin, hstrict⟩ := ih best hpwb
        refine ⟨?_, ?_, ?_⟩
        · rcases hmem with h | h
          · exact Or.inl h
          · exact Or.inr (List.mem_cons_of_mem c h)
        · intro u hu
          rcases List.mem_cons.mp hu with h | h
          · rw [h]
            exact hmin best (List.mem_cons_self best rest)
          · rcases List.mem_cons.mp h with h2 | h2
            · rw [h2]
              exact le_trans (hmin best (List.mem_cons_self best rest)) hnot
            · exact hmin u (List.mem_cons_of_mem best h2)
        · intro u hu hult
          rcases List.mem_cons.mp hu with h | h
          · rw [h] at hult ⊢
            exact hstrict best (List.mem_cons_self best rest) hult
          · rcases List.mem_cons.mp h with h2 | h2
            · rw [h2] at hult ⊢
              rcases hmem with hr | hr
              · exfalso
                have hb := hbest c (List.mem_cons_self c rest)
                rw [hr] at hult
                omega
              · have hbr : best.1 < (pickClosest q best rest).1 :=
                  hbest _ (List.mem_cons_of_mem c hr)
                have hdb : dist2 q (pickClosest q best rest).2 < dist2 q best.2 :=
                  hstrict best (List.mem_cons_self best rest) hbr
                exact lt_of_lt_of_le hdb hnot
            · exact hstrict u (List.mem_cons_of_mem best h2) hult

/-- C1: the four `ToEngine` transforms are silent no-ops when their bound
entity is `None` (no exception, engine target unchanged), but the `FromEngine`
transform `sofaNodeToModelNode` is NOT: with `modelNode = None` it raises
`AttributeError` instead of returning without effect.  The last conjunct
evaluates the code at the failing input. -/
theorem C1_absent_entity_transforms :
    (∀ (p : ParameterNode) (s : SofaBoxROI),
      markupsROIToSofaROI { p with boundaryROI := none } s = .ok s) ∧
    (∀ (p : ParameterNode) (s : SofaGravityNode),
      markupsLineToGravityVector { p with gravityVector := none } s = .ok s) ∧
    (∀ (p : ParameterNode) (s : SofaContainer),
      modelNodetoSofaNode { p with modelNode := none } s = .ok s) ∧
    (∀ (p : ParameterNode) (s : SofaMouseInteractor),
      markupsFiducialNodeToSofaPoint { p with movingPointNode := none } s
        = .ok s) ∧
    (∀ (p : ParameterNode) (positions : List (V3 ℚ)),
      sofaNodeToModelNode { p with modelNode := none } positions
        = .error .attributeError) := by
  refine ⟨?_, ?_, ?_, ?_, ?_⟩ <;> intro p s <;> rfl

/-- C7: for every set point marker, `markupsFiducialNodeToSofaPoint` writes
the marker's current first 3D control-point position replicated as a flat
3-copy triple into the engine node's `position` field. -/
theorem C7_fiducial_to_sofa_point (p : ParameterNode) (cx cy cz : ℚ)
    (rest : List (V3 ℚ)) (s : SofaMouseInteractor) :
    markupsFiducialNodeToSofaPoint
      { p with movingPointNode := some ⟨⟨cx, cy, cz⟩ :: rest⟩ } s
      = .ok { s with position := [[cx, cy, cz, cx, cy, cz, cx, cy, cz]] } := by
  rfl

/-- C10: `resetParameterNode` clears the four node references, sets
`dt = 0.01`, `currentStep = 0` and `totalSteps = -1`, and leaves
`gravityMagnitude` at its prior value; in particular, applied to the class
defaults it leaves `gravityMagnitude` at the class default `1`. -/
theorem C10_resetParameterNode (p : ParameterNode) :
    (resetParameterNode p).modelNode = none ∧
    (resetParameterNode p).boundaryROI = none ∧
    (resetParameterNode p).gravityVector = none ∧
    (resetParameterNode p).movingPointNode = none ∧
    (resetParameterNode p).dt = 1 / 100 ∧
    (resetParameterNode p).currentStep = 0 ∧
    (resetParameterNode p).totalSteps = -1 ∧
    (resetParameterNode p).gravityMagnitude = p.gravityMagnitude ∧
    (resetParameterNode defaultParameterNode).gravityMagnitude = 1 := by
  refine ⟨rfl, rfl, rfl, rfl, rfl, rfl, rfl, rfl, rfl⟩

/-- C4: the `RunOnce` topology upload (`modelNodetoSofaNode`) executes exactly
once per started session: a fresh `start()` with the model entity present
performs the upload, no sequence of `step()` calls repeats it, a stop/restart
performs it exactly once more; and a failed attempt (entity absent) does not
consume the once-guard, leaving the mapping eligible on the next call. -/
theorem C4_run_once_topology (s : Session) (flags flags2 : List Bool)
    (h : s.phase = .idle) :
    startSimulation true s = .ok (startedSession true s) ∧
    (startedSession true s).uploads = s.uploads + 1 ∧
    (runSteps flags (startedSession true s)).uploads = s.uploads + 1 ∧
    (runSteps flags2 (startedSession true
        (stopSimulation (runSteps flags (startedSession true s))))).uploads
      = s.uploads + 2 ∧
    (∀ t : Session, t.onceDone = false →
      (attemptOnce false t).onceDone = false ∧
      (attemptOnce false t).uploads = t.uploads ∧
      (attemptOnce true (attemptOnce false t)).uploads = t.uploads + 1) := by
  obtain ⟨hd, hu⟩ := startedSession_present s
  obtain ⟨hd1, hu1⟩ := runSteps_of_onceDone flags _ hd
  refine ⟨?_, hu, hu1.trans hu, ?_, ?_⟩
  · simp [startSimulation, h]
  · obtain ⟨hd2, hu2⟩ :=
      startedSession_present (stopSimulation (runSteps flags (startedSession true s)))
    obtain ⟨_, hu3⟩ := runSteps_of_onceDone flags2 _ hd2
    rw [hu3, hu2]
    show (runSteps flags (startedSession true s)).uploads + 1 = s.uploads + 2
    rw [hu1, hu]
  · intro t ht
    rw [attemptOnce_absent t]
    exact ⟨ht, rfl, attemptOnce_present_not_done t ht⟩

theorem C4_run_once_topology_witness :
    (runSteps [true, false, true]
      (startedSession true ⟨.idle, 0, -1, false, 0⟩)).uploads = 0 + 1 :=
  (C4_run_once_topology ⟨.idle, 0, -1, false, 0⟩ [true, false, true] [] rfl).2.2.1

/-- C5: a session started fresh with `stepBudget = 5` runs its first five
`step()` calls successfully, auto-transitions to `Idle` after step 5, and the
sixth `step()` call fails with `NotRunning`; a `stepBudget` of `-1` means
unbounded (no auto-stop, every `step()` succeeds). -/
theorem C5_step_budget :
    (∀ k : ℕ, k ≤ 5 →
      (stepN k (startedSession true ⟨.idle, 0, 5, false, 0⟩)).isOk = true) ∧
    stepN 5 (startedSession true ⟨.idle, 0, 5, false, 0⟩)
      = .ok ⟨.idle, 5, 5, true, 1⟩ ∧
    stepN 6 (startedSession true ⟨.idle, 0, 5, false, 0⟩)
      = .error .notRunning ∧
    (∀ (n : ℕ) (s : Session), s.phase = .running → s.stepBudget = -1 →
      ∃ t, stepN n s = .ok t ∧ t.phase = .running ∧ t.stepBudget = -1) := by
  refine ⟨?_, by rfl, by rfl, stepN_unbounded⟩
  intro k hk
  interval_cases k <;> rfl

theorem C5_step_budget_witness :
    (stepN 3 (startedSession true ⟨.idle, 0, 5, false, 0⟩)).isOk = true :=
  C5_step_budget.1 3 (by omega)

/-- C6: `stop()` never changes the step index, is idempotent, and applied to a
session that is already `Idle` it is a complete no-op. -/
theorem C6_stop_idempotent (s : Session) :
    (stopSimulation s).stepIndex = s.stepIndex ∧
    stopSimulation (stopSimulation s) = stopSimulation s ∧
    (s.phase = .idle → stopSimulation s = s) := by
  refine ⟨rfl, rfl, ?_⟩
  intro h
  cases s
  cases h
  rfl

theorem C6_stop_idempotent_witness :
    stopSimulation ⟨.idle, 3, 5, true, 1⟩ = (⟨.idle, 3, 5, true, 1⟩ : Session) :=
  (C6_stop_idempotent ⟨.idle, 3, 5, true, 1⟩).2.2 rfl

/-- C2: `markupsLineToGravityVector` writes
`gravity = normalize(endpoint1 - endpoint0) * gravityMagnitude` to the engine
node; in particular for endpoints `(0,-1,0)` and `(0,1,0)` with magnitude `10`
the resulting gravity vector is `(0,10,0)`. -/
theorem C2_line_to_gravity :
    (∀ (p : ParameterNode) (line : MarkupsLineNode) (s : SofaGravityNode),
      markupsLineToGravityVector { p with gravityVector := some line } s
        = .ok { s with gravity := smulV3 (normalizeIfNonzero (castV3 (arrayVectorFromMarkupsLinePoints line))) (p.gravityMagnitude : ℝ) }) ∧
    (∀ (p : ParameterNode) (s : SofaGravityNode),
      markupsLineToGravityVector
        { p with
          gravityVector := some ⟨⟨0, -1, 0⟩, ⟨0, 1, 0⟩⟩
          gravityMagnitude := 10 } s
        = .ok { s with gravity := ⟨0, 10, 0⟩ }) := by
  constructor
  · intro p line s
    rfl
  · intro p s
    have h1 : castV3 (arrayVectorFromMarkupsLinePoints ⟨⟨0, -1, 0⟩, ⟨0, 1, 0⟩⟩)
        = (⟨0, 2, 0⟩ : V3 ℝ) := by
      simp only [arrayVectorFromMarkupsLinePoints, castV3, V3.mk.injEq]
      norm_num
    have hnorm : npLinalgNorm (⟨0, 2, 0⟩ : V3 ℝ) = 2 := by
      unfold npLinalgNorm
      rw [show ((0 : ℝ) ^ 2 + (2 : ℝ) ^ 2 + (0 : ℝ) ^ 2) = 2 ^ 2 by norm_num]
      exact Real.sqrt_sq (by norm_num)
    have hnz : normalizeIfNonzero (⟨0, 2, 0⟩ : V3 ℝ) = ⟨0, 1, 0⟩ := by
      unfold normalizeIfNonzero
      rw [hnorm, if_pos (by norm_num : (2 : ℝ) ≠ 0)]
      simp only [V3.mk.injEq]
      norm_num
    show (Except.ok { s with gravity := smulV3 (normalizeIfNonzero (castV3 (arrayVectorFromMarkupsLinePoints ⟨⟨0, -1, 0⟩, ⟨0, 1, 0⟩⟩))) ((10 : ℤ) : ℝ) } : Except PyError SofaGravityNode) = Except.ok { s with gravity := ⟨0, 10, 0⟩ }
    rw [h1, hnz]
    simp only [smulV3, V3.mk.injEq, SofaGravityNode.mk.injEq, Except.ok.injEq]
    norm_num

/-- C3: the normalization expression never divides by zero: on the zero vector
it returns the zero vector unchanged; consequently a line marker whose two
endpoints coincide yields a zero gravity vector from
`markupsLineToGravityVector`, for every magnitude. -/
theorem C3_normalize_zero :
    normalizeIfNonzero ⟨0, 0, 0⟩ = (⟨0, 0, 0⟩ : V3 ℝ) ∧
    (∀ (p : ParameterNode) (e : V3 ℚ) (s : SofaGravityNode),
      markupsLineToGravityVector { p with gravityVector := some ⟨e, e⟩ } s
        = .ok { s with gravity := ⟨0, 0, 0⟩ }) := by
  have hzero : normalizeIfNonzero ⟨0, 0, 0⟩ = (⟨0, 0, 0⟩ : V3 ℝ) := by
    unfold normalizeIfNonzero
    have hn : npLinalgNorm (⟨0, 0, 0⟩ : V3 ℝ) = 0 := by
      unfold npLinalgNorm
      norm_num
    rw [hn, if_neg (by simp)]
  refine ⟨hzero, ?_⟩
  intro p e s
  have h1 : castV3 (arrayVectorFromMarkupsLinePoints ⟨e, e⟩)
      = (⟨0, 0, 0⟩ : V3 ℝ) := by
    simp [arrayVectorFromMarkupsLinePoints, castV3]
  show (Except.ok { s with gravity := smulV3 (normalizeIfNonzero (castV3 (arrayVectorFromMarkupsLinePoints ⟨e, e⟩))) (p.gravityMagnitude : ℝ) } : Except PyError SofaGravityNode) = Except.ok { s with gravity := ⟨0, 0, 0⟩ }
  rw [h1, hzero]
  simp [smulV3]

/-- C8: `findClosestPoint` returns the index and coordinates of the mesh
point closest to the query point, breaking exact distance ties by lowest
point index; on the mesh `[(0,0,0),(1,0,0),(2,0,0)]` with query `(1.4,0,0)`
it returns index `1` (point `(1,0,0)`); a nonempty mesh always yields a
result, and `addFiducialToClosestPoint` places its fiducial at that closest
point. -/
theorem C8_nearest_point :
    (∀ (pts : List (V3 ℚ)) (q : V3 ℚ) (i : ℕ) (p : V3 ℚ),
      findClosestPoint pts q = some (i, p) →
      ∃ h : i < pts.length, pts.get ⟨i, h⟩ = p ∧
        (∀ (j : ℕ) (hj : j < pts.length), dist2 q p ≤ dist2 q (pts.get ⟨j, hj⟩)) ∧
        (∀ (j : ℕ) (hj : j < pts.length), j < i →
          dist2 q p < dist2 q (pts.get ⟨j, hj⟩))) ∧
    (∀ (pts : List (V3 ℚ)) (q : V3 ℚ), pts ≠ [] →
      (findClosestPoint pts q).isSome = true) ∧
    (∀ (pts : List (V3 ℚ)) (q : V3 ℚ) (i : ℕ) (p : V3 ℚ),
      findClosestPoint pts q = some (i, p) →
      addFiducialToClosestPoint pts q = some ⟨[p]⟩) ∧
    findClosestPoint [⟨0, 0, 0⟩, ⟨1, 0, 0⟩, ⟨2, 0, 0⟩] ⟨7 / 5, 0, 0⟩
      = some (1, ⟨1, 0, 0⟩) := by
  have h01 : dist2 ⟨7 / 5, 0, 0⟩ (⟨1, 0, 0⟩ : V3 ℚ)
      < dist2 ⟨7 / 5, 0, 0⟩ ⟨0, 0, 0⟩ := by
    norm_num [dist2]
  have h21 : ¬ dist2 ⟨7 / 5, 0, 0⟩ (⟨2, 0, 0⟩ : V3 ℚ)
      < dist2 ⟨7 / 5, 0, 0⟩ ⟨1, 0, 0⟩ := by
    norm_num [dist2]
  refine ⟨?_, ?_, ?_, ?_⟩
  · intro pts q i p hfind
    cases pts with
    | nil => simp [findClosestPoint] at hfind
    | cons p0 rest =>
        rw [findClosestPoint] at hfind
        have hr : pickClosest q (0, p0) (indexFrom 1 rest) = (i, p) :=
          Option.some.inj hfind
        have hpw : List.Pairwise (fun a b : ℕ × V3 ℚ => a.1 < b.1)
            ((0, p0) :: indexFrom 1 rest) := by
          rw [List.pairwise_cons]
          refine ⟨?_, indexFrom_pairwise rest 1⟩
          intro u hu
          obtain ⟨j, hj, h1, _⟩ := mem_indexFrom rest 1 hu
          show 0 < u.1
          omega
        obtain ⟨hmem, hmin, hstrict⟩ := pickClosest_spec q (indexFrom 1 rest) (0, p0) hpw
        rw [hr] at hmem hmin hstrict
        have hmem2 : (i, p) ∈ indexFrom 0 (p0 :: rest) := by
          rw [indexFrom]
          rcases hmem with h | h
          · exact h ▸ List.mem_cons_self _ _
          · exact List.mem_cons_of_mem _ h
        obtain ⟨j, hj, h1, h2⟩ := mem_indexFrom (p0 :: rest) 0 hmem2
        have hij : i = j := by simpa using h1
        subst hij
        refine ⟨hj, h2.symm, ?_, ?_⟩
        · intro j' hj'
          have hm := indexFrom_mem (p0 :: rest) 0 j' hj'
          rw [Nat.zero_add, indexFrom] at hm
          have hm2 : (j', (p0 :: rest).get ⟨j', hj'⟩) ∈ (0, p0) :: indexFrom 1 rest := hm
          exact hmin (j', (p0 :: rest).get ⟨j', hj'⟩) hm2
        · intro j' hj' hlt
          have hm := indexFrom_mem (p0 :: rest) 0 j' hj'
          rw [Nat.zero_add, indexFrom] at hm
          have hm2 : (j', (p0 :: rest).get ⟨j', hj'⟩) ∈ (0, p0) :: indexFrom 1 rest := hm
          exact hstrict (j', (p0 :: rest).get ⟨j', hj'⟩) hm2 hlt
  · intro pts q hne
    cases pts with
    | nil => exact absurd rfl hne
    | cons p0 rest => rfl
  · intro pts q i p h
    rw [addFiducialToClosestPoint, h]
    rfl
  · simp only [findClosestPoint, indexFrom, pickClosest]
    rw [if_pos h01, if_neg h21]

theorem C8_nearest_point_witness :
    (findClosestPoint [⟨0, 0, 0⟩, ⟨1, 0, 0⟩, ⟨2, 0, 0⟩] ⟨7 / 5, 0, 0⟩).isSome
      = true :=
  C8_nearest_point.2.1 [⟨0, 0, 0⟩, ⟨1, 0, 0⟩, ⟨2, 0, 0⟩] ⟨7 / 5, 0, 0⟩
    (List.cons_ne_nil _ _)

/-- C9 counterexample: on a mesh with zero points the region construction does
NOT fail with `EmptyGeometry` — it succeeds and assigns a region (center
`(0,0,0)`, radii `(1,1,1)`, derived from VTK's uninitialized bounds) to
`boundaryROI`. -/
theorem C9_empty_mesh_counterexample :
    addBoundaryROI (some []) defaultParameterNode
      = .ok { defaultParameterNode with
              boundaryROI := some ⟨⟨0, 0, 0⟩, ⟨1, 1, 1⟩⟩ } := by
  show (Except.ok { defaultParameterNode with boundaryROI := some ⟨⟨((1 : ℚ) + -1) / 2, ((1 : ℚ) + -1) / 2, ((1 : ℚ) + -1) / 2⟩, ⟨|(-1 : ℚ) - 1| / 2, |(-1 : ℚ) - 1| / 2, |(-1 : ℚ) - 1| / 2⟩⟩ } : Except GeomError ParameterNode) = Except.ok { defaultParameterNode with boundaryROI := some ⟨⟨0, 0, 0⟩, ⟨1, 1, 1⟩⟩ }
  norm_num [MarkupsROINode.mk.injEq, V3.mk.injEq]

/-- C9 (amended): `addBoundaryROI` never fails — for every mesh (present,
absent, or empty) it succeeds and assigns a fresh region to `boundaryROI`;
on a zero-point mesh the region has center `(0,0,0)` and radii `(1,1,1)`
computed from VTK's uninitialized bounds. -/
theorem C9_addBoundaryROI_total (mesh : Option (List (V3 ℚ))) (p : ParameterNode) :
    (∃ roi, addBoundaryROI mesh p = .ok { p with boundaryROI := some roi }) ∧
    addBoundaryROI (some []) p
      = .ok { p with boundaryROI := some ⟨⟨0, 0, 0⟩, ⟨1, 1, 1⟩⟩ } := by
  constructor
  · cases mesh with
    | none => exact ⟨_, rfl⟩
    | some pts => exact ⟨_, rfl⟩
  · show (Except.ok { p with boundaryROI := some ⟨⟨((1 : ℚ) + -1) / 2, ((1 : ℚ) + -1) / 2, ((1 : ℚ) + -1) / 2⟩, ⟨|(-1 : ℚ) - 1| / 2, |(-1 : ℚ) - 1| / 2, |(-1 : ℚ) - 1| / 2⟩⟩ } : Except GeomError ParameterNode) = Except.ok { p with boundaryROI := some ⟨⟨0, 0, 0⟩, ⟨1, 1, 1⟩⟩ }
    norm_num [MarkupsROINode.mk.injEq, V3.mk.injEq]

end SoftTissueSimulation
